import Mathlib

/-!
Shallow embedding of the background-task execution core of the utility_tool
repository (src/worker.py, src/core.py, src/pages/pdf_shuffle.py), together
with theorems settling the specification claims about it.

Modelling conventions:
* A worker run is embedded as the list of signal emissions (`Event`) it
  produces.  External processing calls are opaque collaborators, so their
  outcomes are supplied as oracle values: `Except.ok b` models a call that
  returns the boolean `b`, `Except.error e` models a call that raises an
  exception whose `str(e)` is `e`.
* The worker's `_is_cancelled` flag is written only by `cancel()` (it is set
  once, never cleared) and polled at checkpoints.  Reads of the flag are
  numbered 0, 1, 2, … in program order; `cancelAt = some c` means the flag
  is set before the `c`-th read (hence that read and every later one sees
  `True`), `cancelAt = none` means cancellation is never requested.
* Python `int((i + 1) / total_files * 80)` truncates the float quotient
  toward zero; both operands are nonnegative here, so it is embedded as the
  exact natural-number floor division `(i + 1) * 80 / total_files`.
* Python strings manipulated character-wise are embedded as `List Char`.
-/

/-- One signal emission of a worker (`WorkerSignals` in src/worker.py:14-18):
`progress` percentage, `finished(success, message)`, or `error(message)`. -/
inductive Event where
  | progress (p : Nat)
  | finished (success : Bool) (message : String)
  | error (msg : String)
deriving DecidableEq

/-- Whether the `r`-th read of the `_is_cancelled` flag returns `True`,
given that the flag is set just before read number `cancelAt` (if ever). -/
def cancelledAt : Option Nat → Nat → Bool
  | none, _ => false
  | some c, r => decide (c ≤ r)

/-- The progress value computed after the per-file call for 0-based loop
index `completed - 1` succeeds (src/worker.py:68, 168, 192, 216, 240):
`int((i + 1) / total_files * 80) + 10`, embedded as exact floor division. -/
def pyProgress (completed total : Nat) : Nat :=
  completed * 80 / total + 10

/-- How the per-file loop of a batch operation exits (other than by falling
through normally): cancelled at a checkpoint, completed the loop or broke on
a `False` return (carrying the overall success flag and the number of the
next flag read), or an exception escaped a per-file call. -/
inductive LoopExit where
  | cancelled
  | completed (success : Bool) (nextRead : Nat)
  | raised (msg : String) (nextRead : Nat)
deriving DecidableEq

/-- Result of running the per-file loop: emitted events, exit information,
and the number of per-file external calls that were invoked. -/
structure LoopOut where
  events : List Event
  exit : LoopExit
  calls : Nat
deriving DecidableEq

/-- The per-file loop shared by all batch branches (src/worker.py:59-69,
151-169, 177-193, 201-217, 225-241).  `i` is the current 0-based loop index;
the flag read guarding index `i` is read number `i + 1` (read 0 happened at
the very start of `run`).  On a `False` return the loop breaks; on an
exception control leaves the loop for the top-level handler. -/
def batchLoop (cancelAt : Option Nat) (total : Nat) :
    List (Except String Bool) → Nat → LoopOut
  | [], i => ⟨[], .completed true (i + 1), 0⟩
  | r :: rest, i =>
    if cancelledAt cancelAt (i + 1) then ⟨[], .cancelled, 0⟩
    else
      match r with
      | .error e => ⟨[], .raised e (i + 2), 1⟩
      | .ok false => ⟨[], .completed false (i + 2), 1⟩
      | .ok true =>
        let out := batchLoop cancelAt total rest (i + 1)
        ⟨.progress (pyProgress (i + 1) total) :: out.events, out.exit, out.calls + 1⟩

/-- Tail of a batch branch after the initial `progress(10)`: run the
per-file loop, then (unless an exception escaped or a checkpoint observed
cancellation) take the final `if not self._is_cancelled` read and emit
`progress(100)` and `finished(success, message)`; an escaped exception
reaches the top-level handler, which takes the same final read and emits
`error(errTag + str(e))` (src/worker.py:104-112, 245-253). -/
def tailEmit (cancelAt : Option Nat) (okMsg failMsg errTag : String) : LoopExit → List Event
  | .cancelled => []
  | .completed success r =>
    if cancelledAt cancelAt r then []
    else [.progress 100, .finished success (if success then okMsg else failMsg)]
  | .raised e r =>
    if cancelledAt cancelAt r then [] else [.error (errTag ++ e)]

/-- Tail of a batch branch after the initial `progress(10)`: the per-file
loop followed by the exit-dependent final emissions. -/
def batchTail (cancelAt : Option Nat) (results : List (Except String Bool))
    (okMsg failMsg errTag : String) : List Event :=
  let out := batchLoop cancelAt results.length results 0
  out.events ++ tailEmit cancelAt okMsg failMsg errTag out.exit

/-- Tail of a single-call branch after the initial `progress(10)`: one
external call, then the final flag read (read number 1) guarding either the
`progress(100)`/`finished` pair or, if the call raised, the `error`
emission in the top-level handler. -/
def singleTail (cancelAt : Option Nat) (res : Except String Bool)
    (okMsg failMsg errTag : String) : List Event :=
  match res with
  | .ok b =>
    if cancelledAt cancelAt 1 then []
    else [.progress 100, .finished b (if b then okMsg else failMsg)]
  | .error e =>
    if cancelledAt cancelAt 1 then [] else [.error (errTag ++ e)]

/-- Tail of a run whose operation name matches no dispatch branch: `success`
and `message` keep their initializations `False` and `""` (src/worker.py:34-35,
132-133), so after the final flag read the worker emits `progress(100)` and
`finished(False, "")`. -/
def unknownTail (cancelAt : Option Nat) : List Event :=
  if cancelledAt cancelAt 1 then [] else [.progress 100, .finished false ""]

/-- A complete batch-operation run: initial flag read (returning early if
cancelled), `progress(10)`, then the batch tail.  This is the common shape of
`PDFWorker.run` on `"split"` (src/worker.py:56-71) and `ImageWorker.run` on
its four batch operations (src/worker.py:147-243). -/
def workerBatchRun (cancelAt : Option Nat) (results : List (Except String Bool))
    (okMsg failMsg errTag : String) : List Event :=
  if cancelledAt cancelAt 0 then []
  else .progress 10 :: batchTail cancelAt results okMsg failMsg errTag

/-- Number of per-file external calls a batch run invokes. -/
def batchCalls (cancelAt : Option Nat) (results : List (Except String Bool)) : Nat :=
  if cancelledAt cancelAt 0 then 0
  else (batchLoop cancelAt results.length results 0).calls

/-- Oracle for the external calls `PDFWorker.run` may dispatch to:
one outcome per single-call branch, a list of per-file outcomes for `"split"`. -/
structure PdfOracle where
  merge : Except String Bool
  customMerge : Except String Bool
  splitResults : List (Except String Bool)
  shuffle : Except String Bool
  toWord : Except String Bool
  toPages : Except String Bool
  toImages : Except String Bool

/-- Diagnostic text placed before `str(e)` by `PDFWorker.run`'s top-level
handler (src/worker.py:109). -/
def pdfErrTag : String := "Error in PDF operation: "

/-- Diagnostic text placed before `str(e)` by `ImageWorker.run`'s top-level
handler (src/worker.py:250). -/
def imageErrTag : String := "Error in image operation: "

/-- `PDFWorker.run` (src/worker.py:31-112) as the list of emitted signals:
initial flag read, `progress(10)`, then the branch selected by `operation`
with its success/failure messages from the source. -/
def pdfWorkerRun (cancelAt : Option Nat) (operation : String) (o : PdfOracle) :
    List Event :=
  if cancelledAt cancelAt 0 then []
  else
    .progress 10 ::
      (if operation = "merge" then
        singleTail cancelAt o.merge "PDFs merged successfully" "Failed to merge PDFs" pdfErrTag
      else if operation = "custom_merge" then
        singleTail cancelAt o.customMerge "Custom merge completed" "Failed to perform custom merge" pdfErrTag
      else if operation = "split" then
        batchTail cancelAt o.splitResults "PDFs split successfully" "Failed to split PDFs" pdfErrTag
      else if operation = "shuffle" then
        singleTail cancelAt o.shuffle "Pages shuffled successfully" "Failed to shuffle pages" pdfErrTag
      else if operation = "convert_to_word" then
        singleTail cancelAt o.toWord "Converted to Word successfully" "Failed to convert to Word" pdfErrTag
      else if operation = "convert_to_pages" then
        singleTail cancelAt o.toPages "Converted to Pages successfully" "Failed to convert to Pages" pdfErrTag
      else if operation = "pdf_to_images" then
        singleTail cancelAt o.toImages "PDF converted to images" "Failed to convert PDF to images" pdfErrTag
      else unknownTail cancelAt)

/-- Oracle for the external calls `ImageWorker.run` may dispatch to. -/
structure ImageOracle where
  imagesToPdf : Except String Bool
  resizeResults : List (Except String Bool)
  convertResults : List (Except String Bool)
  rotateResults : List (Except String Bool)
  filterResults : List (Except String Bool)

/-- `ImageWorker.run` (src/worker.py:129-253) as the list of emitted signals. -/
def imageWorkerRun (cancelAt : Option Nat) (operation : String) (o : ImageOracle) :
    List Event :=
  if cancelledAt cancelAt 0 then []
  else
    .progress 10 ::
      (if operation = "images_to_pdf" then
        singleTail cancelAt o.imagesToPdf "Images converted to PDF" "Failed to convert images to PDF" imageErrTag
      else if operation = "resize" then
        batchTail cancelAt o.resizeResults "Images resized successfully" "Failed to resize images" imageErrTag
      else if operation = "convert_format" then
        batchTail cancelAt o.convertResults "Images converted successfully" "Failed to convert images" imageErrTag
      else if operation = "rotate" then
        batchTail cancelAt o.rotateResults "Images rotated successfully" "Failed to rotate images" imageErrTag
      else if operation = "apply_filter" then
        batchTail cancelAt o.filterResults "Filter applied successfully" "Failed to apply filter" imageErrTag
      else unknownTail cancelAt)

/-- The number of the last flag read of a cancellation-free batch run with
the given per-file outcomes: read 0 at the start, reads 1…k+1 guard the
processed files, and the final `if not self._is_cancelled` read follows
(one past the break index on an early exit, `N + 1` after a full loop). -/
def finalReadCounter : List (Except String Bool) → Nat
  | [] => 1
  | (Except.ok true) :: rest => finalReadCounter rest + 1
  | _ :: _ => 2

/-- The number of the last flag read of a cancellation-free `PDFWorker.run`:
batch shape for `"split"`, reads 0 and 1 for every other branch. -/
def pdfFinalRead (operation : String) (o : PdfOracle) : Nat :=
  if operation = "split" then finalReadCounter o.splitResults else 1

/-- The progress percentages of a trace, in emission order. -/
def progressValues (trace : List Event) : List Nat :=
  trace.filterMap fun e =>
    match e with
    | .progress p => some p
    | _ => none

/-- `True` for the emissions a cancelled worker must never produce:
`finished`, `error`, and `progress(100)`. -/
def Event.isTerminalOr100 : Event → Bool
  | .finished _ _ => true
  | .error _ => true
  | .progress p => p == 100

/-- `TaskManager`'s slot state (src/worker.py:268-271): the `current_worker`
reference and the `is_running` flag.  `some ()` stands for a live worker
reference, `none` for Python `None`. -/
structure TMState where
  currentWorker : Option Unit
  isRunning : Bool
deriving DecidableEq

/-- `TaskManager.__init__` (src/worker.py:268-271): no worker, not running. -/
def TMState.init : TMState := ⟨none, false⟩

/-- Slot logic shared verbatim by `TaskManager.start_pdf_task` and
`TaskManager.start_image_task` (src/worker.py:273-295): refuse while
`is_running`, otherwise install a fresh worker, set `is_running`, return
`True`. -/
def startTask (s : TMState) : TMState × Bool :=
  if s.isRunning then (s, false)
  else (⟨some (), true⟩, true)

/-- `TaskManager.cancel_current_task` (src/worker.py:297-304): if a worker
is present and `is_running`, cancel/quit/wait the worker and clear
`is_running` — the `current_worker` reference is NOT cleared. -/
def cancelCurrentTask (s : TMState) : TMState :=
  if s.currentWorker.isSome && s.isRunning then { s with isRunning := false }
  else s

/-- The slot state at the moment `_on_task_finished` emits `task_finished`
(src/worker.py:313-316): `is_running` is already `False`, the worker
reference is still held. -/
def onTaskFinishedPreEmit (s : TMState) : TMState := { s with isRunning := false }

/-- `TaskManager._on_task_finished` after it returns (src/worker.py:313-321):
`is_running` is `False` and `current_worker` has been released. -/
def onTaskFinished (_ : TMState) : TMState := ⟨none, false⟩

/-- The worker's `error` signal is connected directly to `task_error.emit`
(src/worker.py:311): the relay changes no `TaskManager` state. -/
def onTaskError (s : TMState) : TMState := s

/-- The slot invariant stated by the spec: `is_running` is `true` exactly
when the worker reference is non-empty. -/
def tmInv (s : TMState) : Prop := s.isRunning = s.currentWorker.isSome

instance (s : TMState) : Decidable (tmInv s) := by
  unfold tmInv; infer_instance

/-- A dynamically-typed element of the `page_sequence` argument of
`PDFProcessor.shuffle_pages`: a Python `int`, or a Python `str` (which is
what iterating a string yields, one character at a time). -/
inductive PyVal where
  | int (n : Int)
  | str (s : List Char)
deriving DecidableEq

/-- The validation test `page_num < 1 or page_num > total_pages`
(src/core.py:195): for an `int` it evaluates normally; for a `str` the
comparison with an `int` raises `TypeError`. -/
def pageOutOfRange (total : Nat) : PyVal → Except String Bool
  | .int n => .ok (decide (n < 1 ∨ (total : Int) < n))
  | .str _ => .error "TypeError: comparison of str and int"

/-- The validation loop of `shuffle_pages` (src/core.py:194-197): `.ok true`
if every element passes, `.ok false` on the first out-of-range page number
(the function returns `False`), `.error` if a comparison raises. -/
def validatePages (total : Nat) : List PyVal → Except String Bool
  | [] => .ok true
  | v :: rest =>
    match pageOutOfRange total v with
    | .error e => .error e
    | .ok true => .ok false
    | .ok false => validatePages total rest

/-- `reader.pages[page_num - 1]` (src/core.py:203) for a validated element. -/
def getPage (doc : List α) : PyVal → Option α
  | .int n => doc.get? (n - 1).toNat
  | .str _ => none

/-- `PDFProcessor.shuffle_pages` (src/core.py:178-215) on an existing input
document `doc` (its pages, in order): validate every element of
`page_sequence` against the page count, then write the pages selected by the
sequence, in sequence order.  `some out` models `return True` having written
`out`; `none` models `return False` (including a `TypeError` caught by the
top-level handler) with no output written.  Unlisted pages are not appended. -/
def shuffle_pages (doc : List α) (pageSequence : List PyVal) : Option (List α) :=
  match validatePages doc.length pageSequence with
  | .error _ => none
  | .ok false => none
  | .ok true => some (pageSequence.filterMap (getPage doc))

/-- `PDFShufflePage.shuffle_pages` (src/pages/pdf_shuffle.py:354-360) passes
the raw sequence text as `page_sequence`; iterating that Python `str` yields
its characters as 1-character strings. -/
def stringToSeq (s : List Char) : List PyVal := s.map (fun c => .str [c])

/-- Whitespace removed by Python `str.strip()`. -/
def pyIsSpace (c : Char) : Bool :=
  c = ' ' || c = '\t' || c = '\n' || c = '\r' || c = '\x0b' || c = '\x0c'

/-- Python `str.strip()`. -/
def pyStrip (s : List Char) : List Char :=
  ((s.dropWhile pyIsSpace).reverse.dropWhile pyIsSpace).reverse

/-- Value of a nonempty all-digit character list, else `none`. -/
def digitsVal? : List Char → Option Nat
  | [] => none
  | cs =>
    if cs.all (fun c => c.isDigit) then
      some (cs.foldl (fun a c => a * 10 + (c.toNat - 48)) 0)
    else none

/-- Python `int(s)` on a decimal literal: optional surrounding whitespace,
optional sign, at least one digit; `none` models `ValueError`.  (Underscore
digit grouping and non-ASCII digits are not used by this repository's
inputs and are not modelled.) -/
def pyInt? (s : List Char) : Option Int :=
  match pyStrip s with
  | '-' :: rest => (digitsVal? rest).map (fun n => -(n : Int))
  | '+' :: rest => (digitsVal? rest).map (fun n => (n : Int))
  | cs => (digitsVal? cs).map (fun n => (n : Int))

/-- Python `s.split(sep)` for a one-character separator. -/
def splitOnChar (sep : Char) : List Char → List (List Char)
  | [] => [[]]
  | c :: rest =>
    match splitOnChar sep rest with
    | [] => [[]]
    | h :: t => if c = sep then [] :: h :: t else (c :: h) :: t

/-- Python `s.split(sep, 1)`: split at the first occurrence of `sep`;
`none` when `sep` does not occur. -/
def splitOnceAux (sep : Char) : List Char → Option (List Char × List Char)
  | [] => none
  | c :: rest =>
    if c = sep then some ([], rest)
    else (splitOnceAux sep rest).map (fun p => (c :: p.1, p.2))

/-- Python `range(start, stop)` over integers. -/
def intRange (start stop : Int) : List Int :=
  (List.range (stop - start).toNat).map (fun i => start + i)

/-- Stable insertion of `n` into a sorted list. -/
def insertSorted (n : Int) : List Int → List Int
  | [] => [n]
  | m :: rest => if n ≤ m then n :: m :: rest else m :: insertSorted n rest

/-- Insertion sort, embedding Python `sorted` on a list of ints. -/
def sortInts : List Int → List Int
  | [] => []
  | n :: rest => insertSorted n (sortInts rest)

/-- Keep the first occurrence of each value (`seen` accumulates the values
already emitted); composed with `sortInts` this embeds
`sorted(list(set(pages)))`. -/
def dedupSeen (seen : List Int) : List Int → List Int
  | [] => []
  | n :: rest => if n ∈ seen then dedupSeen seen rest else n :: dedupSeen (n :: seen) rest

/-- The token loop of `PDFProcessor._parse_page_range` (src/core.py:334-345):
each comma-separated token is stripped; a token containing `-` is split once
and both sides parsed as ints, contributing
`range(start, min(end + 1, total_pages + 1))`; any other token is parsed as
one int and contributes itself only when `1 <= page_num <= total_pages`.
The first failing `int()` raises `ValueError`, making the whole parse fail
(`none`). -/
def parseParts (total : Nat) : List (List Char) → Option (List Int)
  | [] => some []
  | part :: rest =>
    let p := pyStrip part
    if p.elem '-' then
      match splitOnceAux '-' p with
      | none => none
      | some (startStr, endStr) =>
        match pyInt? startStr, pyInt? endStr with
        | some st, some en =>
          (parseParts total rest).map
            (fun tl => intRange st (min (en + 1) ((total : Int) + 1)) ++ tl)
        | _, _ => none
    else
      match pyInt? p with
      | some n =>
        (parseParts total rest).map
          (fun tl => (if 1 ≤ n ∧ n ≤ (total : Int) then [n] else []) ++ tl)
      | none => none

/-- `PDFProcessor._parse_page_range` (src/core.py:328-351): split the range
string on commas and run the token loop; on `ValueError` return the EMPTY
list, otherwise `sorted(list(set(pages)))`. -/
def parse_page_range (pageRange : List Char) (totalPages : Nat) : List Int :=
  match parseParts totalPages (splitOnChar ',' pageRange) with
  | none => []
  | some pages => sortInts (dedupSeen [] pages)

/-- One element of `merge_instructions`: the instruction dict's `'file'`
and `'pages'` entries (the characters `all` meaning the whole file). -/
structure MergeInstruction where
  file : String
  pages : List Char
deriving DecidableEq

/-- One `merger.append` performed by `custom_merge_pdfs`: a whole file, or
the 0-based single-page slice `pages=(page - 1, page)` (src/core.py:114, 120). -/
inductive MergeItem where
  | whole (file : String)
  | page (file : String) (zeroBased : Int)
deriving DecidableEq

/-- `PDFProcessor.custom_merge_pdfs` (src/core.py:94-138) on an abstract
filesystem `pageCount` (`some total` = the file exists with `total` pages,
`none` = `os.path.exists` fails, making the whole call return `False`).
`some items` models `return True` having written the output built from
`items`; `none` models `return False` with no output written.  An
instruction whose page range parses to the empty list contributes nothing
(`if pages:` is skipped) and the run continues. -/
def custom_merge_pdfs (pageCount : String → Option Nat) :
    List MergeInstruction → Option (List MergeItem)
  | [] => some []
  | inst :: rest =>
    match pageCount inst.file with
    | none => none
    | some total =>
      let items :=
        if inst.pages = ['a', 'l', 'l'] then [MergeItem.whole inst.file]
        else (parse_page_range inst.pages total).map
          (fun p => MergeItem.page inst.file (p - 1))
      (custom_merge_pdfs pageCount rest).map (fun tl => items ++ tl)

/-- Modelled from the spec: the progress formula the spec states for batch
operations, `10 + round((completed_files / total_files) * 80)` with `round`
rounding to the nearest integer — to be compared against the code's
truncating formula `pyProgress`. -/
def specProgressRound (completed total : Nat) : Int :=
  10 + round ((completed * 80 : ℚ) / total)

/-- A small filesystem with a single 3-page file, used as a concrete input. -/
def fsOneFile : String → Option Nat :=
  fun f => if f = "a.pdf" then some 3 else none

-- ### Helper lemmas

/-- Without a cancellation request every flag read returns `False`. -/
theorem cancelledAt_none (r : Nat) : cancelledAt none r = false := rfl

/-- Unrolling the cancellation-free per-file loop over a prefix of successful calls: one progress emission per file, calls counted, control continuing into the remainder. -/
theorem batchLoop_replicate (total k : Nat) (xs : List (Except String Bool)) :
    ∀ i, batchLoop none total (List.replicate k (Except.ok true) ++ xs) i =
      ⟨((List.range k).map fun j => Event.progress (pyProgress (i + 1 + j) total)) ++
          (batchLoop none total xs (i + k)).events,
        (batchLoop none total xs (i + k)).exit,
        (batchLoop none total xs (i + k)).calls + k⟩ := by
  induction k with
  | zero => intro i; simp [batchLoop]
  | succ k ih =>
    intro i
    rw [List.replicate_succ, List.cons_append]
    show batchLoop none total (Except.ok true :: _) i = _
    rw [batchLoop]
    simp only [cancelledAt_none, if_false, Bool.false_eq_true]
    rw [ih (i + 1)]
    rw [List.range_succ_eq_map, List.map_cons, List.map_map]
    simp only [LoopOut.mk.injEq]
    have hidx : i + 1 + k = i + (k + 1) := by omega
    refine ⟨?_, by rw [hidx], by rw [hidx]; omega⟩
    rw [List.cons_append, hidx]
    simp only [Nat.add_zero]
    refine congrArg₂ (· :: ·) rfl (congrArg₂ (· ++ ·) ?_ rfl)
    apply List.map_congr_left
    intro j hj
    simp only [Function.comp_apply]
    congr 2
    omega

/-- A cancellation-free batch tail over `N` successful calls: `N` intermediate progress emissions, then `progress(100)` and `finished(True, okMsg)`. -/
theorem batchTail_replicate_ok (N : Nat) (okMsg failMsg errTag : String) :
    batchTail none (List.replicate N (Except.ok true)) okMsg failMsg errTag =
      ((List.range N).map fun j => Event.progress (pyProgress (j + 1) N)) ++
        [Event.progress 100, Event.finished true okMsg] := by
  have h := batchLoop_replicate N N [] 0
  rw [List.append_nil] at h
  simp only [batchTail, List.length_replicate, h, batchLoop]
  simp [cancelledAt_none, tailEmit]
  intro a _
  rw [Nat.add_comm]

/-- The full trace of a cancellation-free batch run whose per-file calls all succeed. -/
theorem workerBatchRun_all_ok (N : Nat) (okMsg failMsg errTag : String) :
    workerBatchRun none (List.replicate N (Except.ok true)) okMsg failMsg errTag =
      Event.progress 10 ::
        (((List.range N).map fun j => Event.progress (pyProgress (j + 1) N)) ++
          [Event.progress 100, Event.finished true okMsg]) := by
  rw [workerBatchRun, cancelledAt_none, batchTail_replicate_ok]
  rfl

/-- The full trace of a cancellation-free batch run whose per-file call at index `k` is the first to return `False`: the loop breaks there and the run ends with `progress(100)` and `finished(False, failMsg)`. -/
theorem workerBatchRun_fail_at (k : Nat) (rest : List (Except String Bool))
    (okMsg failMsg errTag : String) :
    workerBatchRun none (List.replicate k (Except.ok true) ++ Except.ok false :: rest)
        okMsg failMsg errTag =
      Event.progress 10 ::
        (((List.range k).map fun j =>
            Event.progress (pyProgress (j + 1) (k + 1 + rest.length))) ++
          [Event.progress 100, Event.finished false failMsg]) := by
  have hlen : (List.replicate k (Except.ok true) ++ Except.ok false :: rest).length
      = k + 1 + rest.length := by
    simp [List.length_append]; omega
  have h := batchLoop_replicate (k + 1 + rest.length) k (Except.ok false :: rest) 0
  rw [workerBatchRun, cancelledAt_none, batchTail, hlen, h]
  simp only [batchLoop, cancelledAt_none, Bool.false_eq_true, if_false]
  simp [cancelledAt_none, tailEmit]
  intro a _
  rw [Nat.add_comm]

/-- A batch run whose call at index `k` is the first to fail invokes exactly `k + 1` per-file calls. -/
theorem batchCalls_fail_at (k : Nat) (rest : List (Except String Bool)) :
    batchCalls none (List.replicate k (Except.ok true) ++ Except.ok false :: rest) = k + 1 := by
  have h := batchLoop_replicate
    ((List.replicate k (Except.ok true) ++ Except.ok false :: rest).length) k
    (Except.ok false :: rest) 0
  rw [batchCalls, cancelledAt_none, if_neg (by simp), h]
  simp [batchLoop, cancelledAt_none]
  omega

/-- Progress extraction distributes over concatenation. -/
theorem progressValues_append (a b : List Event) :
    progressValues (a ++ b) = progressValues a ++ progressValues b := by
  simp [progressValues, List.filterMap_append]

/-- Progress extraction of a pure progress-event list. -/
theorem progressValues_map_progress (f : Nat → Nat) (l : List Nat) :
    progressValues (l.map fun j => Event.progress (f j)) = l.map f := by
  induction l with
  | nil => rfl
  | cons x xs ih => simp [progressValues, List.filterMap_cons] at ih ⊢; exact ih

/-- Progress extraction past a leading progress event. -/
theorem progressValues_cons_progress (p : Nat) (l : List Event) :
    progressValues (Event.progress p :: l) = p :: progressValues l := by
  simp [progressValues, List.filterMap_cons]

/-- The progress percentages of an all-success batch run: 10, the `N` per-file values, then 100. -/
theorem progressValues_all_ok (N : Nat) (okMsg failMsg errTag : String) :
    progressValues (workerBatchRun none (List.replicate N (Except.ok true)) okMsg failMsg errTag) =
      10 :: ((List.range N).map fun j => pyProgress (j + 1) N) ++ [100] := by
  rw [workerBatchRun_all_ok]
  show progressValues ([Event.progress 10] ++ (_ ++ [Event.progress 100, Event.finished true okMsg])) = _
  rw [progressValues_append, progressValues_append, progressValues_map_progress]
  rfl

/-- The per-file progress formula is monotone in the completed count. -/
theorem pyProgress_mono {a b : Nat} (N : Nat) (h : a ≤ b) :
    pyProgress a N ≤ pyProgress b N := by
  have h2 : a * 80 ≤ b * 80 := Nat.mul_le_mul_right 80 h
  have h3 := Nat.div_le_div_right (c := N) h2
  unfold pyProgress
  omega

/-- With at most `total` completed files the per-file progress formula stays at or below 90. -/
theorem pyProgress_le_90 {k N : Nat} (h : k ≤ N) : pyProgress k N ≤ 90 := by
  unfold pyProgress
  rcases Nat.eq_zero_or_pos N with hN | hN
  · subst hN
    have : k = 0 := Nat.le_zero.mp h
    simp [this]
  · have h2 : k * 80 / N ≤ N * 80 / N := Nat.div_le_div_right (Nat.mul_le_mul_right 80 h)
    rw [Nat.mul_div_cancel_left 80 hN] at h2
    omega

/-- The per-file progress formula never goes below 10. -/
theorem pyProgress_ge_10 (k N : Nat) : 10 ≤ pyProgress k N :=
  Nat.le_add_left 10 _

/-- For at most 80 files the per-file progress formula strictly exceeds 10. -/
theorem pyProgress_gt_10 {k N : Nat} (hk : 1 ≤ k) (hN : 0 < N) (h80 : N ≤ 80) :
    10 < pyProgress k N := by
  have hk80 : 80 ≤ k * 80 := by
    calc (80 : Nat) = 1 * 80 := (Nat.one_mul 80).symm
    _ ≤ k * 80 := Nat.mul_le_mul_right 80 hk
  have h1 : 1 ≤ k * 80 / N := (Nat.one_le_div_iff hN).mpr (le_trans h80 hk80)
  unfold pyProgress
  omega

/-- If cancellation arrives no later than the final flag read, the per-file loop emits no terminal event and no `progress(100)`, and any normal exit carries a next-read number already covered by the cancellation. -/
theorem batchLoop_cancel_safe (c total : Nat) :
    ∀ (results : List (Except String Bool)) (i : Nat),
      i + results.length ≤ total →
      c ≤ i + finalReadCounter results →
      (∀ e ∈ (batchLoop (some c) total results i).events, e.isTerminalOr100 = false) ∧
      (match (batchLoop (some c) total results i).exit with
        | .cancelled => True
        | .completed _ r => c ≤ r
        | .raised _ r => c ≤ r) := by
  intro results
  induction results with
  | nil =>
    intro i hlen hc
    simp only [batchLoop, finalReadCounter] at hc ⊢
    exact ⟨by simp, hc⟩
  | cons r rest ih =>
    intro i hlen hc
    simp only [batchLoop]
    by_cases hcan : cancelledAt (some c) (i + 1) = true
    · rw [if_pos hcan]
      exact ⟨by simp, trivial⟩
    · rw [if_neg hcan]
      have hgt : i + 1 < c := by
        simp only [cancelledAt, decide_eq_true_eq] at hcan
        omega
      match r with
      | .error e =>
        refine ⟨by simp, ?_⟩
        simp only [finalReadCounter] at hc
        omega
      | .ok false =>
        refine ⟨by simp, ?_⟩
        simp only [finalReadCounter] at hc
        omega
      | .ok true =>
        simp only [List.length_cons] at hlen
        simp only [finalReadCounter] at hc
        have hih := ih (i + 1) (by omega) (by omega)
        refine ⟨?_, hih.2⟩
        intro e he
        rcases List.mem_cons.mp he with rfl | hmem
        · show (pyProgress (i + 1) total == 100) = false
          have : pyProgress (i + 1) total ≤ 90 := pyProgress_le_90 (by omega)
          simp only [beq_eq_false_iff_ne, ne_eq]
          omega
        · exact hih.1 e hmem

/-- A batch tail whose cancellation arrives no later than its final flag read emits no `finished`, no `error`, and no `progress(100)`. -/
theorem batchTail_cancel_safe (c : Nat) (results : List (Except String Bool))
    (okMsg failMsg errTag : String) (hc : c ≤ finalReadCounter results) :
    ∀ e ∈ batchTail (some c) results okMsg failMsg errTag, e.isTerminalOr100 = false := by
  intro e he
  rw [batchTail] at he
  have hsafe := batchLoop_cancel_safe c results.length results 0 (by omega) (by omega)
  rcases List.mem_append.mp he with hin | hin
  · exact hsafe.1 e hin
  · exfalso
    have h2 := hsafe.2
    rcases hexit : (batchLoop (some c) results.length results 0).exit with _ | ⟨b, r⟩ | ⟨m, r⟩ <;>
      rw [hexit] at h2 hin
    · simp [tailEmit] at hin
    · have hcr : c ≤ r := h2
      rw [tailEmit, if_pos (by simp only [cancelledAt, decide_eq_true_eq]; exact hcr)] at hin
      simp at hin
    · have hcr : c ≤ r := h2
      rw [tailEmit, if_pos (by simp only [cancelledAt, decide_eq_true_eq]; exact hcr)] at hin
      simp at hin

/-- A single-call tail with cancellation at read 1 emits nothing. -/
theorem singleTail_cancel_one (res : Except String Bool) (okMsg failMsg errTag : String) :
    ∀ e ∈ singleTail (some 1) res okMsg failMsg errTag, e.isTerminalOr100 = false := by
  match res with
  | .ok b => simp [singleTail, cancelledAt]
  | .error m => simp [singleTail, cancelledAt]

/-- An unknown-operation tail with cancellation at read 1 emits nothing. -/
theorem unknownTail_cancel_one :
    ∀ e ∈ unknownTail (some 1), e.isTerminalOr100 = false := by
  simp [unknownTail, cancelledAt]

/-- A `PDFWorker.run` whose cancellation flag is set at or before its last flag read emits no `finished`, no `error`, and no `progress(100)`. -/
theorem pdfWorkerRun_cancel_safe (c : Nat) (op : String) (o : PdfOracle)
    (hc : c ≤ pdfFinalRead op o) :
    ∀ e ∈ pdfWorkerRun (some c) op o, e.isTerminalOr100 = false := by
  intro e he
  rcases Nat.eq_zero_or_pos c with rfl | hpos
  · rw [pdfWorkerRun] at he
    simp [cancelledAt] at he
  · rw [pdfWorkerRun,
      if_neg (by simp only [cancelledAt, decide_eq_true_eq]; omega)] at he
    rcases List.mem_cons.mp he with rfl | hmem
    · rfl
    · by_cases hsp : op = "split"
      · subst hsp
        rw [if_neg (by decide), if_neg (by decide), if_pos rfl] at hmem
        simp only [pdfFinalRead, reduceIte] at hc
        exact batchTail_cancel_safe c o.splitResults _ _ _ hc e hmem
      · have hc1 : c = 1 := by
          rw [pdfFinalRead, if_neg hsp] at hc
          omega
        subst hc1
        by_cases h1 : op = "merge"
        · rw [if_pos h1] at hmem
          exact singleTail_cancel_one _ _ _ _ e hmem
        · rw [if_neg h1] at hmem
          by_cases h2 : op = "custom_merge"
          · rw [if_pos h2] at hmem
            exact singleTail_cancel_one _ _ _ _ e hmem
          · rw [if_neg h2, if_neg hsp] at hmem
            by_cases h3 : op = "shuffle"
            · rw [if_pos h3] at hmem
              exact singleTail_cancel_one _ _ _ _ e hmem
            · rw [if_neg h3] at hmem
              by_cases h4 : op = "convert_to_word"
              · rw [if_pos h4] at hmem
                exact singleTail_cancel_one _ _ _ _ e hmem
              · rw [if_neg h4] at hmem
                by_cases h5 : op = "convert_to_pages"
                · rw [if_pos h5] at hmem
                  exact singleTail_cancel_one _ _ _ _ e hmem
                · rw [if_neg h5] at hmem
                  by_cases h6 : op = "pdf_to_images"
                  · rw [if_pos h6] at hmem
                    exact singleTail_cancel_one _ _ _ _ e hmem
                  · rw [if_neg h6] at hmem
                    exact unknownTail_cancel_one e hmem

/-- `PDFWorker.run` on `"split"` is exactly the generic batch-run shape. -/
theorem pdfWorkerRun_split_eq (cancelAt : Option Nat) (o : PdfOracle) :
    pdfWorkerRun cancelAt "split" o =
      workerBatchRun cancelAt o.splitResults "PDFs split successfully" "Failed to split PDFs"
        pdfErrTag := by
  rw [pdfWorkerRun, workerBatchRun]
  rcases cancelledAt cancelAt 0 with _ | _ <;> simp

/-- `ImageWorker.run` on `"resize"` is exactly the generic batch-run shape. -/
theorem imageWorkerRun_resize_eq (cancelAt : Option Nat) (o : ImageOracle) :
    imageWorkerRun cancelAt "resize" o =
      workerBatchRun cancelAt o.resizeResults "Images resized successfully"
        "Failed to resize images" imageErrTag := by
  rw [imageWorkerRun, workerBatchRun]
  rcases cancelledAt cancelAt 0 with _ | _ <;> simp

-- ### Claim theorems

/-- C1 (code bug): the claim says every terminal notification (finished or error) empties the slot so an immediate `requestTask` returns `True`.  Evaluating the model at the failing input: after a running worker's `error` notification the relay leaves `is_running = True` and the worker reference in place, so the next request returns `False`; only the `finished` path empties the slot. -/
theorem claim_C1_code_bug :
    (startTask (onTaskError (startTask TMState.init).1)).2 = false ∧
    (onTaskError (startTask TMState.init).1).isRunning = true ∧
    (onTaskError (startTask TMState.init).1).currentWorker = some () ∧
    (startTask (onTaskFinished (startTask TMState.init).1)).2 = true := by
  decide

/-- C2 (code bug): the claim (and the shuffle page's own description) says pages not listed in the page-order spec are appended after the listed ones in original order.  Evaluating `shuffle_pages` at the failing input: on a 5-page document the spec `[2]` writes only page 2 — unlisted pages are dropped, not appended. -/
theorem claim_C2_code_bug :
    shuffle_pages [1, 2, 3, 4, 5] [PyVal.int 2] = some [2] ∧
    ([2] : List Nat) ≠ [2, 1, 3, 4, 5] := by
  decide

/-- C3 counterexample: a custom-merge instruction whose page range is the non-numeric token `abc` does not fail — `custom_merge_pdfs` returns success, writing an output with no pages appended. -/
theorem claim_C3_counterexample :
    custom_merge_pdfs fsOneFile [⟨"a.pdf", ['a', 'b', 'c']⟩] = some [] ∧
    (some [] : Option (List MergeItem)) ≠ none := by
  decide

/-- C3 (amended): a page-range string whose parse fails makes `_parse_page_range` return the empty list, and `custom_merge_pdfs` silently skips that instruction's pages and proceeds: the run behaves as if the instruction were absent and reports success (writing the output file), not a validation failure. -/
theorem claim_C3_amended (pageCount : String → Option Nat) (file : String)
    (ps : List Char) (total : Nat) (rest : List MergeInstruction)
    (hf : pageCount file = some total) (hall : ps ≠ ['a', 'l', 'l'])
    (hbad : parse_page_range ps total = []) :
    custom_merge_pdfs pageCount (⟨file, ps⟩ :: rest) = custom_merge_pdfs pageCount rest ∧
    custom_merge_pdfs pageCount [⟨file, ps⟩] = some [] := by
  have hstep : custom_merge_pdfs pageCount (⟨file, ps⟩ :: rest) = custom_merge_pdfs pageCount rest := by
    rw [custom_merge_pdfs, hf]
    simp only [if_neg hall, hbad, List.map_nil]
    rcases custom_merge_pdfs pageCount rest with _ | tl
    · rfl
    · simp
  refine ⟨hstep, ?_⟩
  rw [custom_merge_pdfs, hf]
  simp only [if_neg hall, hbad, List.map_nil]
  rfl

/-- Witness for C3 at a concrete input: one 3-page file with page range `abc`. -/
theorem claim_C3_witness :
    fsOneFile "a.pdf" = some 3 ∧
    (['a', 'b', 'c'] : List Char) ≠ ['a', 'l', 'l'] ∧
    parse_page_range ['a', 'b', 'c'] 3 = [] ∧
    (custom_merge_pdfs fsOneFile [⟨"a.pdf", ['a', 'b', 'c']⟩] = custom_merge_pdfs fsOneFile [] ∧
      custom_merge_pdfs fsOneFile [⟨"a.pdf", ['a', 'b', 'c']⟩] = some []) :=
  ⟨by decide, by decide, by decide,
    claim_C3_amended fsOneFile "a.pdf" ['a', 'b', 'c'] 3 [] (by decide) (by decide) (by decide)⟩

/-- C4 counterexample: with `N = 81` files the first intermediate progress value is `int(1/81*80) + 10 = 10`, which is not strictly between 10 and 100. -/
theorem claim_C4_counterexample :
    ¬ (∀ v ∈ ((progressValues (workerBatchRun none (List.replicate 81 (Except.ok true))
        "PDFs split successfully" "Failed to split PDFs" pdfErrTag)).drop 1).dropLast,
      10 < v ∧ v < 100) := by
  decide

/-- C4 (amended): for a cancellation-free batch run over `N > 0` files whose per-file calls all succeed, the progress sequence starts at 10, ends at 100, has exactly `N` intermediate values (one per file), is non-decreasing, and every intermediate value `v` satisfies `10 ≤ v < 100` — strictly above 10 whenever `N ≤ 80`. -/
theorem claim_C4_amended (N : Nat) (okMsg failMsg errTag : String) (hN : 0 < N) :
    (progressValues (workerBatchRun none (List.replicate N (Except.ok true))
        okMsg failMsg errTag)).head? = some 10 ∧
    (progressValues (workerBatchRun none (List.replicate N (Except.ok true))
        okMsg failMsg errTag)).getLast? = some 100 ∧
    (progressValues (workerBatchRun none (List.replicate N (Except.ok true))
        okMsg failMsg errTag)).length = N + 2 ∧
    List.Chain' (· ≤ ·) (progressValues (workerBatchRun none (List.replicate N (Except.ok true))
        okMsg failMsg errTag)) ∧
    ∀ v ∈ ((progressValues (workerBatchRun none (List.replicate N (Except.ok true))
        okMsg failMsg errTag)).drop 1).dropLast,
      10 ≤ v ∧ v < 100 ∧ (N ≤ 80 → 10 < v) := by
  rw [progressValues_all_ok]
  refine ⟨by rw [List.cons_append]; rfl, ?_, by simp, ?_, ?_⟩
  · exact List.getLast?_concat _
  · rw [List.chain'_append]
    refine ⟨?_, by simp, ?_⟩
    · rw [List.chain'_cons']
      refine ⟨?_, ?_⟩
      · intro y hy
        have hmem : y ∈ (List.range N).map fun j => pyProgress (j + 1) N :=
          List.mem_of_mem_head? hy
        rcases List.mem_map.mp hmem with ⟨j, hj, rfl⟩
        exact pyProgress_ge_10 _ _
      · rw [List.chain'_map]
        cases N with
        | zero => simp
        | succ M =>
          rw [List.chain'_range_succ]
          intro m hm
          exact pyProgress_mono _ (by omega)
    · intro x hx y hy
      simp only [List.head?_cons, Option.mem_def, Option.some.injEq] at hy
      subst hy
      rcases List.mem_getLast?_eq_getLast hx with ⟨hne, rfl⟩
      have hmem := List.getLast_mem hne
      rcases List.mem_cons.mp hmem with h10 | hmap
      · omega
      · rcases List.mem_map.mp hmap with ⟨j, hj, hjx⟩
        have hb : pyProgress (j + 1) N ≤ 90 := pyProgress_le_90 (by
          have := List.mem_range.mp hj; omega)
        omega
  · intro v hv
    rw [List.cons_append, List.drop_one, List.tail_cons, List.dropLast_concat] at hv
    rcases List.mem_map.mp hv with ⟨j, hj, rfl⟩
    have hjN := List.mem_range.mp hj
    refine ⟨pyProgress_ge_10 _ _, ?_, fun h80 => pyProgress_gt_10 (by omega) hN h80⟩
    have hb : pyProgress (j + 1) N ≤ 90 := pyProgress_le_90 (by omega)
    omega

/-- Witness for C4 at `N = 2`. -/
theorem claim_C4_witness :
    0 < 2 ∧
    ((progressValues (workerBatchRun none (List.replicate 2 (Except.ok true))
        "a" "b" pdfErrTag)).head? = some 10 ∧
      (progressValues (workerBatchRun none (List.replicate 2 (Except.ok true))
        "a" "b" pdfErrTag)).getLast? = some 100 ∧
      (progressValues (workerBatchRun none (List.replicate 2 (Except.ok true))
        "a" "b" pdfErrTag)).length = 2 + 2 ∧
      List.Chain' (· ≤ ·) (progressValues (workerBatchRun none (List.replicate 2 (Except.ok true))
        "a" "b" pdfErrTag)) ∧
      ∀ v ∈ ((progressValues (workerBatchRun none (List.replicate 2 (Except.ok true))
        "a" "b" pdfErrTag)).drop 1).dropLast,
        10 ≤ v ∧ v < 100 ∧ (2 ≤ 80 → 10 < v)) :=
  ⟨by decide, claim_C4_amended 2 "a" "b" pdfErrTag (by decide)⟩

/-- C5 counterexample: after the first of three successful calls the code emits `int(1/3*80) + 10 = 36`, while the spec's formula `10 + round((1/3)*80)` gives 37. -/
theorem claim_C5_counterexample :
    (progressValues (workerBatchRun none
        [Except.ok true, Except.ok true, Except.ok true] "ok" "fail" pdfErrTag))[1]? =
      some 36 ∧
    specProgressRound 1 3 = 37 ∧ (36 : Int) ≠ 37 := by
  refine ⟨by decide, ?_, by decide⟩
  rw [specProgressRound]
  have h27 : round ((80 : ℚ) / 3) = 27 := by
    rw [round_eq, Int.floor_eq_iff]
    constructor <;> norm_num
  norm_num [h27]

/-- C5 (amended): the progress value emitted after the `k`-th successful per-file call of a cancellation-free batch run over `N` files is `10 + (k * 80) / N` with truncating (floor) division — `int()` in the source — not rounding to nearest. -/
theorem claim_C5_amended (k : Nat) (rest : List (Except String Bool))
    (okMsg failMsg errTag : String) (hk : 1 ≤ k) :
    (progressValues (workerBatchRun none
        (List.replicate k (Except.ok true) ++ rest) okMsg failMsg errTag))[k]? =
      some (10 + k * 80 / (k + rest.length)) := by
  obtain ⟨m, rfl⟩ : ∃ m, k = m + 1 := ⟨k - 1, by omega⟩
  have hlen : (List.replicate (m + 1) (Except.ok true) ++ rest).length
      = m + 1 + rest.length := by simp
  have h := batchLoop_replicate (m + 1 + rest.length) (m + 1) rest 0
  rw [workerBatchRun, cancelledAt_none, if_neg (by simp), batchTail, hlen, h]
  simp only [List.append_assoc]
  rw [progressValues_cons_progress, progressValues_append, progressValues_map_progress]
  rw [List.getElem?_cons_succ]
  rw [List.getElem?_append_left (by simp)]
  rw [List.getElem?_map, List.getElem?_range (by omega)]
  simp only [Option.map]
  rw [Nat.add_comm 1 m, pyProgress, Nat.add_comm]

/-- Witness for C5 at `k = 1`, `N = 3`. -/
theorem claim_C5_witness :
    1 ≤ 1 ∧
    (progressValues (workerBatchRun none
        (List.replicate 1 (Except.ok true) ++ [Except.ok true, Except.ok true])
        "ok" "fail" pdfErrTag))[1]? = some (10 + 1 * 80 / (1 + 2)) :=
  ⟨by decide,
    claim_C5_amended 1 [Except.ok true, Except.ok true] "ok" "fail" pdfErrTag (by decide)⟩

/-- C6 counterexample: cancelling the freshly started task clears `is_running` but leaves `current_worker` set — the slot is not EMPTY in the claimed sense (worker reference released). -/
theorem claim_C6_counterexample :
    (cancelCurrentTask (startTask TMState.init).1).isRunning = false ∧
    (cancelCurrentTask (startTask TMState.init).1).currentWorker ≠ none := by
  decide

/-- C6 (amended): `cancelCurrentTask` invoked while a task is running clears `is_running` — so a `requestTask` issued immediately after it succeeds — but retains the worker reference rather than releasing it; and a worker whose cancellation flag is set at (or before) any executed checkpoint emits no `finished`, no `error`, and no `progress(100)` thereafter. -/
theorem claim_C6_amended :
    (∀ s : TMState, s.isRunning = true → s.currentWorker.isSome = true →
      (cancelCurrentTask s).isRunning = false ∧
      (cancelCurrentTask s).currentWorker = s.currentWorker ∧
      (startTask (cancelCurrentTask s)).2 = true) ∧
    (∀ (c : Nat) (op : String) (o : PdfOracle), c ≤ pdfFinalRead op o →
      ∀ e ∈ pdfWorkerRun (some c) op o, e.isTerminalOr100 = false) := by
  constructor
  · intro s hrun hwork
    have hcond : (s.currentWorker.isSome && s.isRunning) = true := by
      rw [hrun, hwork]; rfl
    rw [cancelCurrentTask, if_pos hcond]
    exact ⟨rfl, rfl, by rw [startTask]; rfl⟩
  · intro c op o hc
    exact pdfWorkerRun_cancel_safe c op o hc

/-- Witness for C6 at the running state and a concrete cancelled run. -/
theorem claim_C6_witness :
    (cancelCurrentTask ⟨some (), true⟩).isRunning = false ∧
    (cancelCurrentTask ⟨some (), true⟩).currentWorker = some () ∧
    (startTask (cancelCurrentTask ⟨some (), true⟩)).2 = true ∧
    ((pdfWorkerRun (some 1) "split"
        ⟨Except.ok true, Except.ok true, [Except.ok true, Except.ok true],
          Except.ok true, Except.ok true, Except.ok true, Except.ok true⟩).all
      fun e => !e.isTerminalOr100) = true := by
  refine ⟨(claim_C6_amended.1 ⟨some (), true⟩ rfl rfl).1,
    (claim_C6_amended.1 ⟨some (), true⟩ rfl rfl).2.1,
    (claim_C6_amended.1 ⟨some (), true⟩ rfl rfl).2.2, ?_⟩
  rw [List.all_eq_true]
  intro e he
  rw [claim_C6_amended.2 1 "split" _ (by decide) e he]
  rfl

/-- C7 counterexample: after `cancelCurrentTask` on a running slot, `is_running` is `False` while the worker reference is still non-empty — the claimed iff invariant fails. -/
theorem claim_C7_counterexample :
    (cancelCurrentTask (startTask TMState.init).1).isRunning = false ∧
    (cancelCurrentTask (startTask TMState.init).1).currentWorker.isSome = true := by
  decide

/-- C7 (amended): the invariant `is_running == (worker reference non-empty)` holds initially and is preserved by task acceptance, the finished notification, and the error relay; but `cancelCurrentTask` on a running slot breaks it, leaving `is_running = False` with the worker reference still set.  At most one worker exists at any time by construction of the single slot. -/
theorem claim_C7_amended :
    tmInv TMState.init ∧
    (∀ s : TMState, tmInv s →
      tmInv (startTask s).1 ∧ tmInv (onTaskFinished s) ∧ tmInv (onTaskError s)) ∧
    (∀ s : TMState, tmInv s → s.isRunning = true →
      (cancelCurrentTask s).isRunning = false ∧
      (cancelCurrentTask s).currentWorker.isSome = true ∧
      ¬ tmInv (cancelCurrentTask s)) := by
  refine ⟨rfl, ?_, ?_⟩
  · intro s hinv
    refine ⟨?_, rfl, hinv⟩
    rw [startTask]
    rcases hr : s.isRunning with _ | _
    · simp [tmInv]
    · simpa using hinv
  · intro s hinv hrun
    have hwork : s.currentWorker.isSome = true := by rw [← hinv, hrun]
    have hcond : (s.currentWorker.isSome && s.isRunning) = true := by
      rw [hrun, hwork]; rfl
    rw [cancelCurrentTask, if_pos hcond]
    refine ⟨rfl, hwork, ?_⟩
    rw [tmInv]
    simp [hwork]

/-- Witness for C7 at the initial and running states. -/
theorem claim_C7_witness :
    tmInv TMState.init ∧
    tmInv (startTask TMState.init).1 ∧
    (cancelCurrentTask ⟨some (), true⟩).isRunning = false ∧
    (cancelCurrentTask ⟨some (), true⟩).currentWorker.isSome = true ∧
    ¬ tmInv (cancelCurrentTask ⟨some (), true⟩) := by
  refine ⟨claim_C7_amended.1,
    (claim_C7_amended.2.1 TMState.init claim_C7_amended.1).1, ?_, ?_, ?_⟩
  · exact (claim_C7_amended.2.2 ⟨some (), true⟩ rfl rfl).1
  · exact (claim_C7_amended.2.2 ⟨some (), true⟩ rfl rfl).2.1
  · exact (claim_C7_amended.2.2 ⟨some (), true⟩ rfl rfl).2.2

/-- C8 (confirmed): for a cancellation-free batch run over `N` files whose call at 0-based index `k` is the first to fail, exactly `k + 1` per-file calls are attempted, the remaining files never influence the trace, and the run ends with `progress(100)` followed by `finished(False, failMsg)`. -/
theorem claim_C8_confirmed (k : Nat) (rest : List (Except String Bool)) (okMsg failMsg errTag : String) :
    batchCalls none (List.replicate k (Except.ok true) ++ Except.ok false :: rest) = k + 1 ∧
    workerBatchRun none (List.replicate k (Except.ok true) ++ Except.ok false :: rest)
        okMsg failMsg errTag =
      Event.progress 10 ::
        (((List.range k).map fun j =>
            Event.progress (pyProgress (j + 1) (k + 1 + rest.length))) ++
          [Event.progress 100, Event.finished false failMsg]) :=
  ⟨batchCalls_fail_at k rest, workerBatchRun_fail_at k rest okMsg failMsg errTag⟩

/-- C9 (confirmed): the shuffle page passes the raw sequence text, so `shuffle_pages` receives a string; validating its first character raises `TypeError`, which the handler converts to `False`, and the worker ends every such task with `finished(False, "Failed to shuffle pages")` regardless of the document or the (nonempty) sequence text. -/
theorem claim_C9_confirmed (doc : List Nat) (s : List Char) (h : s ≠ [])
    (o : PdfOracle) (ho : o.shuffle = Except.ok (shuffle_pages doc (stringToSeq s)).isSome) :
    shuffle_pages doc (stringToSeq s) = none ∧
    pdfWorkerRun none "shuffle" o =
      [Event.progress 10, Event.progress 100,
        Event.finished false "Failed to shuffle pages"] := by
  obtain ⟨c, s', rfl⟩ : ∃ c s', s = c :: s' := by
    cases s with
    | nil => exact absurd rfl h
    | cons c s' => exact ⟨c, s', rfl⟩
  have hnone : shuffle_pages doc (stringToSeq (c :: s')) = none := by
    simp [shuffle_pages, stringToSeq, validatePages, pageOutOfRange]
  refine ⟨hnone, ?_⟩
  rw [hnone] at ho
  simp [pdfWorkerRun, singleTail, cancelledAt, ho]

/-- Witness for C9 on a 3-page document and sequence text `2`. -/
theorem claim_C9_witness :
    (['2'] : List Char) ≠ [] ∧
    (shuffle_pages [1, 2, 3] (stringToSeq ['2']) = none ∧
      pdfWorkerRun none "shuffle"
          ⟨Except.ok true, Except.ok true, [], Except.ok false,
            Except.ok true, Except.ok true, Except.ok true⟩ =
        [Event.progress 10, Event.progress 100,
          Event.finished false "Failed to shuffle pages"]) :=
  ⟨by decide,
    claim_C9_confirmed [1, 2, 3] ['2'] (by decide)
      ⟨Except.ok true, Except.ok true, [], Except.ok false,
        Except.ok true, Except.ok true, Except.ok true⟩ (by rfl)⟩

/-- C10 (confirmed): an operation name outside both workers' dispatch sets, with no cancellation, yields `progress(10)`, `progress(100)`, `finished(False, "")` — no fault and an empty message. -/
theorem claim_C10_confirmed (op : String) (o : PdfOracle) (oi : ImageOracle)
    (h1 : op ∉ ["merge", "custom_merge", "split", "shuffle", "convert_to_word",
      "convert_to_pages", "pdf_to_images"])
    (h2 : op ∉ ["images_to_pdf", "resize", "convert_format", "rotate", "apply_filter"]) :
    pdfWorkerRun none op o = [Event.progress 10, Event.progress 100, Event.finished false ""] ∧
    imageWorkerRun none op oi = [Event.progress 10, Event.progress 100, Event.finished false ""] := by
  simp only [List.mem_cons, List.mem_singleton, not_or] at h1 h2
  obtain ⟨a1, a2, a3, a4, a5, a6, a7, -⟩ := h1
  obtain ⟨b1, b2, b3, b4, b5, -⟩ := h2
  constructor
  · simp [pdfWorkerRun, unknownTail, cancelledAt, a1, a2, a3, a4, a5, a6, a7]
  · simp [imageWorkerRun, unknownTail, cancelledAt, b1, b2, b3, b4, b5]

-- ## Block B: batch machinery

/-- Witness for C10 at the operation name `frobnicate`. -/
theorem claim_C10_witness :
    ("frobnicate" : String) ∉ ["merge", "custom_merge", "split", "shuffle", "convert_to_word",
      "convert_to_pages", "pdf_to_images"] ∧
    ("frobnicate" : String) ∉ ["images_to_pdf", "resize", "convert_format", "rotate",
      "apply_filter"] ∧
    (pdfWorkerRun none "frobnicate"
        ⟨Except.ok true, Except.ok true, [], Except.ok true, Except.ok true,
          Except.ok true, Except.ok true⟩ =
      [Event.progress 10, Event.progress 100, Event.finished false ""] ∧
    imageWorkerRun none "frobnicate"
        ⟨Except.ok true, [], [], [], []⟩ =
      [Event.progress 10, Event.progress 100, Event.finished false ""]) :=
  ⟨by decide, by decide,
    claim_C10_confirmed "frobnicate"
      ⟨Except.ok true, Except.ok true, [], Except.ok true, Except.ok true,
        Except.ok true, Except.ok true⟩
      ⟨Except.ok true, [], [], [], []⟩ (by decide) (by decide)⟩
